import Mathlib

/-!
Verification of the phase-orchestration and timed-animation engine of
`src/valentine/main.js` (a single-session, multi-phase scripted browser
presentation).  Each JavaScript function of the core is shallowly embedded
as a Lean definition; timers are modelled by explicit (delay, action)
schedules and event-loop state passing; machine numbers are `Nat`/`Int`/`ℚ`.
-/

namespace Valentine

/- ---------- Constants (main.js lines 17-24) ---------- -/

def DISTANCE_MILES : ℕ := 3084
def ARC_FLIGHT_TIME : ℕ := 7000
def CE_DISPLAY_TIME : ℕ := 2500
def TYPEWRITER_SPEED : ℕ := 25

/-- `retryMessages` (main.js lines 44-48): the fixed three escalating
error strings. -/
def retryMessages : List String :=
  ["Error: Connection refused.", "Error: Timeout exceeded.", "Rerouting to Accept..."]

/- ============================================
   Retry interaction state machine (`handleRetry`, main.js lines 605-648)
   ============================================ -/

/-- The escalating control behaviour chosen by `handleRetry`'s branch on
`retryCount`: shake only / shake then dodge / hide. -/
inductive RetryBehavior where
  | shake
  | shakeDodge
  | hide
  | none
deriving Repr, DecidableEq

/-- Mutable state read and written by `handleRetry`: the ambient
`retryCount`, the `#retry-error` element's text and visibility, and the
behaviour triggered by the last call (class changes on `#btn-retry`). -/
structure RetryState where
  retryCount : ℕ
  errorText : String
  errorVisible : Bool
  lastBehavior : RetryBehavior
deriving Repr, DecidableEq

/-- State before any click: `retryCount = 0`, empty error display. -/
def retryInit : RetryState :=
  { retryCount := 0, errorText := "", errorVisible := false, lastBehavior := .none }

/-- `handleRetry` (main.js lines 605-648): early-returns once
`retryCount >= retryMessages.length`; otherwise shows
`retryMessages[retryCount]`, branches on `retryCount` for the control
behaviour (0 → shake, 1 → shake + dodge, else → hiding), then increments
`retryCount`. -/
def handleRetry (s : RetryState) : RetryState :=
  if s.retryCount ≥ retryMessages.length then s
  else
    let message := retryMessages.getD s.retryCount ""
    let behavior : RetryBehavior :=
      if s.retryCount = 0 then .shake
      else if s.retryCount = 1 then .shakeDodge
      else .hide
    { retryCount := s.retryCount + 1
      errorText := message
      errorVisible := true
      lastBehavior := behavior }

/-- `k` successive activations of the retry control from the initial state. -/
def retryAfter (k : ℕ) : RetryState := handleRetry^[k] retryInit

/- ============================================
   Countdown driver (`startCountdown` / `update`, main.js lines 498-527)
   ============================================ -/

/-- JavaScript `String(n).padStart(2, '0')` for a natural number. -/
def pad2 (n : ℕ) : String :=
  if n < 10 then "0" ++ toString n else toString n

/-- The `update` closure of `startCountdown` (main.js lines 502-523), as a
pure function from the target instant and the current instant (both in
milliseconds) to the rendered countdown text.  If `diff ≤ 0` it renders the
fixed completion message; otherwise it decomposes `diff` by the integer
floor-division cascade into days/hours/minutes/seconds, pushes the days
part only when positive, zero-pads the rest to two digits, and joins with
spaces after the fixed prefix. -/
def countdownRender (target now : ℤ) : String :=
  let diff := target - now
  if diff ≤ 0 then "Happy Valentine's Day"
  else
    let d := diff.toNat
    let days := d / 86400000
    let hours := d % 86400000 / 3600000
    let minutes := d % 3600000 / 60000
    let seconds := d % 60000 / 1000
    let parts : List String :=
      (if days > 0 then [s!"{days}d"] else []) ++
        [pad2 hours ++ "h", pad2 minutes ++ "m", pad2 seconds ++ "s"]
    "// Valentine's Day in " ++ String.intercalate " " parts

/- ============================================
   Globe synchronization bridge (`initGlobe` / `waitForGlobe`,
   main.js lines 175-305)
   ============================================ -/

/-- Outcome of the `waitForGlobe` polling loop: either `buildGlobe` runs
(the library became available) at some instant, or the promise resolves
with the no-op fallback (main.js lines 188-191) at some instant.  Either
way the loop terminates; no error is surfaced. -/
inductive GlobeWait where
  | built (t : ℕ)
  | fallback (t : ℕ)
deriving Repr, DecidableEq

def GlobeWait.time : GlobeWait → ℕ
  | .built t => t
  | .fallback t => t

/-- `waitForGlobe` (main.js lines 181-192): `avail t` tells whether
`typeof Globe !== 'undefined'` holds at instant `t`.  If available, build;
otherwise while `waitAttempts < 50` increment the counter and re-poll
200 ms later; once the attempts are exhausted, resolve with the fallback
immediately at the current instant. -/
def waitForGlobe (avail : ℕ → Bool) (waitAttempts now : ℕ) : GlobeWait :=
  if avail now then .built now
  else if h : waitAttempts < 50 then
    waitForGlobe avail (waitAttempts + 1) (now + 200)
  else .fallback now
termination_by 50 - waitAttempts
decreasing_by omega

/- ============================================
   Latency counter (`animateLatencyCounter`, main.js lines 311-328)
   ============================================ -/

/-- The per-frame `update` of `animateLatencyCounter` (main.js lines
315-325) as a pure function of `elapsed` and the counter duration: clamp
`progress` to at most 1, apply the cubic ease-out `1 - (1 - p)^3`, scale by
`DISTANCE_MILES`, and round to the displayed integer. -/
def latencyValue (elapsed duration : ℚ) : ℤ :=
  let progress := min (elapsed / duration) 1
  let eased := 1 - (1 - progress) ^ 3
  round (eased * (DISTANCE_MILES : ℚ))

/-- The counter duration `ARC_FLIGHT_TIME * 0.8` (main.js line 312). -/
def latencyDuration : ℚ := (ARC_FLIGHT_TIME : ℚ) * (8 / 10)

/- ============================================
   Retry dodge offset (`handleRetry`, lines 623-630)
   ============================================ -/

/-- The dodge offset computed on the second retry click (main.js lines
626-629), as a function of the viewport width `w` and the two
`Math.random()` draws `r1, r2 ∈ [0, 1)`:
`maxX = min(60, w * 0.1)`, `x = (r1 - 0.5) * maxX * 2`,
`y = -20 - r2 * 30`. -/
def dodgeOffset (w r1 r2 : ℚ) : ℚ × ℚ :=
  let maxX := min 60 (w * (1 / 10))
  ((r1 - 1 / 2) * maxX * 2, -20 - r2 * 30)

/- ============================================
   Phase orchestration (`transitionToGlobe` lines 366-371,
   `transitionToLetter` lines 377-398, `init` begin handler lines 669-685,
   `scheduleStatusUpdates` lines 334-357)
   ============================================ -/

/-- The time at which the `initGlobe` promise resolves, given the outcome
of the polling loop: on fallback it resolves at once (line 190); after
`buildGlobe` the arc timer fires 1500 ms later (line 275) and
`scheduleStatusUpdates` resolves `ARC_FLIGHT_TIME + 800 + CE_DISPLAY_TIME`
ms after that anchor (lines 354-356). -/
def globeResolveTime : GlobeWait → ℕ
  | .built t => t + 1500 + ARC_FLIGHT_TIME + 800 + CE_DISPLAY_TIME
  | .fallback t => t

/-- The phase-level UI mutations performed by the orchestrator's
transition steps: the `active` class changes of `transitionToGlobe` /
`transitionToLetter` plus the romantic theme switch. -/
inductive PhaseAction where
  | deactivateLanding
  | activateGlobe
  | deactivateGlobe
  | enterRomantic
  | activateLetter
deriving Repr, DecidableEq

/-- Which phase containers carry the `active` class (plus the body's
romantic theme flag). -/
structure PhaseState where
  landing : Bool
  globe : Bool
  letter : Bool
  romantic : Bool
deriving Repr, DecidableEq

/-- Initial markup state: the landing phase is active, nothing else. -/
def phaseInit : PhaseState :=
  { landing := true, globe := false, letter := false, romantic := false }

def applyPhase (s : PhaseState) : PhaseAction → PhaseState
  | .deactivateLanding => { s with landing := false }
  | .activateGlobe => { s with globe := true }
  | .deactivateGlobe => { s with globe := false }
  | .enterRomantic => { s with romantic := true }
  | .activateLetter => { s with letter := true }

/-- The orchestrator's timed schedule for a run whose begin click happens
at time 0 and whose globe promise resolves at `tR`: `transitionToGlobe`
removes the landing `active` class at once then adds the globe `active`
class 400 ms later (lines 366-371); when the promise resolves,
`transitionToLetter` removes the globe `active` class at once, switches to
the romantic theme 600 ms later and activates the letter phase 1200 ms
later (lines 377-398). -/
def orchestratorTrace (tR : ℕ) : List (ℕ × PhaseAction) :=
  [(0, .deactivateLanding), (400, .activateGlobe), (tR, .deactivateGlobe),
   (tR + 600, .enterRomantic), (tR + 1200, .activateLetter)]

/-- The sequence of UI states as the orchestrator's steps fire in order. -/
def phaseStates (tR : ℕ) : List PhaseState :=
  List.scanl applyPhase phaseInit ((orchestratorTrace tR).map Prod.snd)

def isActivation : PhaseAction → Bool
  | .activateGlobe => true
  | .enterRomantic => true
  | .activateLetter => true
  | _ => false

/-- A Bool sequence never returns to `true` after having dropped from
`true` to `false` (its shape is false\* true\* false\*). -/
def noReentryB (l : List Bool) : Bool :=
  ((l.dropWhile (fun b => !b)).dropWhile (fun b => b)).all (fun b => !b)

/- ============================================
   Accept interaction (`handleAccept`, main.js lines 537-599)
   ============================================ -/

/-- One scheduled invocation of the confetti collaborator (particle count
and the delay at which `handleAccept` schedules it). -/
structure ConfettiCall where
  particleCount : ℕ
  delay : ℕ
deriving Repr, DecidableEq

/-- Invoking the particle-burst collaborator; invoking it while absent is
a thrown TypeError, modelled as `Except.error`. -/
def callConfetti (confettiAvailable : Bool) (particleCount delay : ℕ) :
    Except String ConfettiCall :=
  if confettiAvailable then .ok ⟨particleCount, delay⟩
  else .error "TypeError: confetti is not a function"

/-- Observable outcome of `handleAccept`: the scheduled confetti bursts,
the 0.8 s opacity fade applied to the `.the-ask` section, and the instants
(ms after the click) at which the section's display is removed and the
accepted state becomes visible. -/
structure AcceptResult where
  confettiCalls : List ConfettiCall
  askFadeDuration : ℕ
  askOpacityZero : Bool
  askRemovedAt : ℕ
  acceptedVisibleAt : ℕ
deriving Repr, DecidableEq

/-- `handleAccept` (main.js lines 537-599): guarded by
`typeof confetti === 'function'`, fires four staggered bursts; then fades
the ask section over 0.8 s and, 800 ms later, removes it from display and
shows the accepted state. -/
def handleAccept (confettiAvailable : Bool) : Except String AcceptResult := do
  let calls ←
    if confettiAvailable then do
      let c1 ← callConfetti confettiAvailable 120 0
      let c2 ← callConfetti confettiAvailable 60 200
      let c3 ← callConfetti confettiAvailable 60 400
      let c4 ← callConfetti confettiAvailable 50 600
      pure [c1, c2, c3, c4]
    else pure []
  pure { confettiCalls := calls, askFadeDuration := 800, askOpacityZero := true,
         askRemovedAt := 800, acceptedVisibleAt := 800 }

/- ============================================
   Begin control (`init`, main.js lines 658-690)
   ============================================ -/

/-- The steps of the begin click handler (main.js lines 669-685), in
source order; `awaitGlobe` is the handler's first asynchronous
suspension. -/
inductive BeginStep where
  | disableControl
  | fadeControl
  | stopStarfield
  | startGlobeTransition
  | awaitGlobe
  | startLetterTransition
deriving Repr, DecidableEq

def beginHandlerSteps : List BeginStep :=
  [.disableControl, .fadeControl, .stopStarfield, .startGlobeTransition,
   .awaitGlobe, .startLetterTransition]

/-- The synchronous prefix of the handler: everything before the first
`await` runs atomically within the click dispatch. -/
def beginSyncSteps : List BeginStep :=
  beginHandlerSteps.takeWhile (fun s => s != .awaitGlobe)

/-- Session state of the begin control: whether pointer events are
disabled, and how many times the begin sequence has started. -/
structure BeginState where
  beginDisabled : Bool
  runs : ℕ
deriving Repr, DecidableEq

def beginInit : BeginState := { beginDisabled := false, runs := 0 }

def applyBeginStep (s : BeginState) : BeginStep → BeginState
  | .disableControl => { s with beginDisabled := true }
  | _ => s

/-- A user click on the begin control: the browser dispatches the handler
only while pointer events are enabled; a dispatched handler runs its
synchronous prefix atomically before any other event can be processed. -/
def clickBegin (s : BeginState) : BeginState :=
  if s.beginDisabled then s
  else beginSyncSteps.foldl applyBeginStep { s with runs := s.runs + 1 }

/- ============================================
   Typewriter engine (`startTypewriter`, main.js lines 430-493)
   ============================================ -/

/-- State of the typewriter run over the letter's paragraphs: the stored
source texts (`texts[pIndex]` is the closure's `fullText`), the text
content currently in each paragraph node (`revealed`), each paragraph's
display flag (`shown`, false while `display:none`), and the cursor
position counters `pIndex` / `charIndex`. -/
structure TWState where
  texts : List (List Char)
  revealed : List (List Char)
  shown : List Bool
  pIndex : ℕ
  charIndex : ℕ
deriving Repr, DecidableEq

/-- The setup of `startTypewriter` (main.js lines 438-449): store each
paragraph's full text, clear its content, hide it, and start at the first
paragraph and character. -/
def twInit (texts : List (List Char)) : TWState :=
  { texts := texts
    revealed := texts.map (fun _ => [])
    shown := texts.map (fun _ => false)
    pIndex := 0
    charIndex := 0 }

/-- One scheduler tick of the typewriter (main.js lines 452-489): if the
current paragraph is still hidden, `typeNextParagraph` reveals it and
attaches the cursor; otherwise `typeChar` either inserts
`fullText[charIndex]` before the cursor and advances `charIndex`, or — the
paragraph being exhausted — advances `pIndex` and resets `charIndex`.
Once `pIndex` reaches the paragraph count only the cursor fade-out
remains and the text state no longer changes. -/
def twStep (s : TWState) : TWState :=
  if hp : s.pIndex < s.texts.length then
    if s.shown.getD s.pIndex false = false then
      { s with shown := s.shown.set s.pIndex true }
    else
      if hc : s.charIndex < (s.texts.get ⟨s.pIndex, hp⟩).length then
        { s with
          revealed := s.revealed.set s.pIndex
            (s.revealed.getD s.pIndex [] ++
              [(s.texts.get ⟨s.pIndex, hp⟩).get ⟨s.charIndex, hc⟩])
          charIndex := s.charIndex + 1 }
      else
        { s with pIndex := s.pIndex + 1, charIndex := 0 }
  else s

/-- Number of scheduler ticks left before the typewriter finishes. -/
def twMeasure (s : TWState) : ℕ :=
  if hp : s.pIndex < s.texts.length then
    (if s.shown.getD s.pIndex false then 0 else 1) +
      ((s.texts.get ⟨s.pIndex, hp⟩).length - s.charIndex) + 1 +
      ((s.texts.drop (s.pIndex + 1)).map (fun t => t.length + 2)).sum
  else 0

/-- Paragraph `i` is mid-reveal: some but not all of its characters are
in the document. -/
def partiallyRevealed (s : TWState) (i : ℕ) : Prop :=
  0 < (s.revealed.getD i []).length ∧
    (s.revealed.getD i []).length < (s.texts.getD i []).length

/-- The typewriter run invariant: paragraphs before `pIndex` are fully
revealed and visible, the current paragraph holds exactly the first
`charIndex` characters of its text, and paragraphs after `pIndex` are
empty and hidden. -/
structure TWInv (s : TWState) : Prop where
  rlen : s.revealed.length = s.texts.length
  slen : s.shown.length = s.texts.length
  plen : s.pIndex ≤ s.texts.length
  before_rev : ∀ i, i < s.pIndex → s.revealed.getD i [] = s.texts.getD i []
  before_shown : ∀ i, i < s.pIndex → s.shown.getD i false = true
  cur_rev : s.revealed.getD s.pIndex [] = (s.texts.getD s.pIndex []).take s.charIndex
  cur_le : s.charIndex ≤ (s.texts.getD s.pIndex []).length
  after_rev : ∀ j, s.pIndex < j → s.revealed.getD j [] = []
  after_shown : ∀ j, s.pIndex < j → s.shown.getD j false = false

/-- Observable effects of invoking `startTypewriter`: either a complete
no-op, or a prepared run with its initial 1800 ms delay before the first
tick. -/
inductive StartOutcome where
  | noop
  | started (s : TWState) (initialDelay : ℕ)
deriving Repr, DecidableEq

def StartOutcome.cursorCreated : StartOutcome → Bool
  | .noop => false
  | .started _ _ => true

def StartOutcome.timersScheduled : StartOutcome → ℕ
  | .noop => 0
  | .started _ _ => 1

def StartOutcome.textsMutated : StartOutcome → Bool
  | .noop => false
  | .started _ _ => true

/-- `startTypewriter` (main.js lines 430-436, 446-447, 492): with no
`.typewriter-target` container, or a container with no paragraphs, it
returns before creating the cursor, scheduling any timer, or touching any
text; otherwise it clears and hides the paragraphs, creates the cursor,
and schedules the first tick 1800 ms later. -/
def startTypewriter (container : Option (List (List Char))) : StartOutcome :=
  match container with
  | none => .noop
  | some paragraphs =>
    if paragraphs.length = 0 then .noop
    else .started (twInit paragraphs) 1800

end Valentine

/- ============================================
   Theorems
   ============================================ -/

namespace Valentine

/-- Auxiliary: a single `handleRetry` call never decreases `retryCount`
and keeps it bounded by `retryMessages.length`. -/
theorem handleRetry_mono (s : RetryState) :
    s.retryCount ≤ (handleRetry s).retryCount ∧
      (handleRetry s).retryCount ≤ max s.retryCount retryMessages.length := by
  unfold handleRetry
  split
  · exact ⟨le_refl _, le_max_left _ _⟩
  · rename_i h
    refine ⟨Nat.le_succ _, ?_⟩
    simp only [not_le] at h
    exact le_max_of_le_right h

/-- Auxiliary: once `retryCount` has reached the message count, a call is
the identity. -/
theorem handleRetry_saturated (s : RetryState)
    (h : s.retryCount ≥ retryMessages.length) : handleRetry s = s := by
  unfold handleRetry
  simp [h]

/-- C4: from the initial state, the k-th retry activation (1 ≤ k ≤ 3)
leaves `attemptCount = k` and displays `messages[k-1]`; every call from the
4th on is a no-op (`attemptCount` stays 3, the display unchanged), so
`attemptCount` is monotone and bounded by `messages.length`. -/
theorem retry_state_machine :
    (∀ k : ℕ, 1 ≤ k → k ≤ 3 →
        (retryAfter k).retryCount = k ∧
          (retryAfter k).errorText = retryMessages.getD (k - 1) "") ∧
      (∀ m : ℕ, 3 ≤ m → retryAfter m = retryAfter 3) ∧
      (∀ k : ℕ, (retryAfter k).retryCount ≤ (retryAfter (k + 1)).retryCount) ∧
      (∀ k : ℕ, (retryAfter k).retryCount ≤ retryMessages.length) := by
  have h3 : retryAfter 3 =
      { retryCount := 3, errorText := "Rerouting to Accept...",
        errorVisible := true, lastBehavior := .hide } := by
    decide
  have hsat : ∀ m : ℕ, 3 ≤ m → retryAfter m = retryAfter 3 := by
    intro m hm
    induction m with
    | zero => omega
    | succ n ih =>
      rcases Nat.lt_or_ge 3 (n + 1) with hlt | hge
      · have hn : 3 ≤ n := by omega
        have : retryAfter (n + 1) = handleRetry (retryAfter n) := by
          simp [retryAfter, Function.iterate_succ_apply']
        rw [this, ih hn, h3, handleRetry_saturated _ (by decide)]
      · have : n + 1 = 3 := by omega
        rw [this]
  refine ⟨?_, hsat, ?_, ?_⟩
  · intro k h1 h3'
    interval_cases k <;> decide
  · intro k
    have : retryAfter (k + 1) = handleRetry (retryAfter k) := by
      simp [retryAfter, Function.iterate_succ_apply']
    rw [this]
    exact (handleRetry_mono _).1
  · intro k
    induction k with
    | zero => decide
    | succ n ih =>
      have hs : retryAfter (n + 1) = handleRetry (retryAfter n) := by
        simp [retryAfter, Function.iterate_succ_apply']
      rw [hs]
      have := (handleRetry_mono (retryAfter n)).2
      omega

/-- Witness for `retry_state_machine` at k = 2, m = 5. -/
theorem retry_state_machine_witness :
    (retryAfter 2).retryCount = 2 ∧
      (retryAfter 2).errorText = retryMessages.getD 1 "" ∧
      retryAfter 5 = retryAfter 3 := by
  obtain ⟨hk, hsat, _, _⟩ := retry_state_machine
  obtain ⟨h1, h2⟩ := hk 2 (by decide) (by decide)
  exact ⟨h1, h2, hsat 5 (by decide)⟩

/-- Auxiliary: the countdown render only depends on `target - now`. -/
theorem countdownRender_shift (t n d : ℤ) (h : t - n = d) :
    countdownRender t n = countdownRender d 0 := by
  unfold countdownRender
  rw [h, sub_zero]

/-- C5: the countdown tick renders the fixed completion message whenever
`target - now ≤ 0`, and otherwise decomposes the remainder by the
floor-division cascade: at 1d 1h 1m 1s before the target it renders
`1d 01h 01m 01s` (days unpadded, the rest zero-padded), and at
1h 1m 1s before the target the zero days field is omitted entirely. -/
theorem countdown_render_cases :
    (∀ target now : ℤ, target ≤ now →
        countdownRender target now = "Happy Valentine's Day") ∧
      (∀ target : ℤ, countdownRender target (target - 90061000) =
        "// Valentine's Day in 1d 01h 01m 01s") ∧
      (∀ target : ℤ, countdownRender target (target - 3661000) =
        "// Valentine's Day in 01h 01m 01s") := by
  refine ⟨?_, ?_, ?_⟩
  · intro target now h
    unfold countdownRender
    rw [if_pos (sub_nonpos.mpr h)]
  · intro target
    rw [countdownRender_shift target (target - 90061000) 90061000 (by ring)]
    decide
  · intro target
    rw [countdownRender_shift target (target - 3661000) 3661000 (by ring)]
    decide

/-- Witness for `countdown_render_cases` at concrete instants. -/
theorem countdown_render_cases_witness :
    countdownRender 1000 2000 = "Happy Valentine's Day" ∧
      countdownRender 100000000 (100000000 - 90061000) =
        "// Valentine's Day in 1d 01h 01m 01s" := by
  exact ⟨countdown_render_cases.1 1000 2000 (by norm_num),
    countdown_render_cases.2.1 100000000⟩

/-- Auxiliary: if the library is never available, a run of `waitForGlobe`
starting with `waitAttempts = 50 - n` resolves with the fallback exactly
`200 * n` ms after its start. -/
theorem waitForGlobe_never (n : ℕ) (h : n ≤ 50) :
    ∀ t, waitForGlobe (fun _ => false) (50 - n) t = .fallback (t + 200 * n) := by
  induction n with
  | zero =>
    intro t
    unfold waitForGlobe
    norm_num
  | succ m ih =>
    intro t
    unfold waitForGlobe
    have h1 : 50 - (m + 1) < 50 := by omega
    have h2 : 50 - (m + 1) + 1 = 50 - m := by omega
    simp only [Bool.false_eq_true, if_false, dif_pos h1, h2, ih (by omega)]
    congr 1
    ring

/-- Auxiliary: for every availability history, `waitForGlobe` starting at
`waitAttempts = 50 - n` terminates (builds or falls back) within
`200 * n` ms of its start. -/
theorem waitForGlobe_time_le (avail : ℕ → Bool) (n : ℕ) (h : n ≤ 50) :
    ∀ t, (waitForGlobe avail (50 - n) t).time ≤ t + 200 * n := by
  induction n with
  | zero =>
    intro t
    unfold waitForGlobe
    split
    · simp [GlobeWait.time]
    · norm_num [GlobeWait.time]
  | succ m ih =>
    intro t
    unfold waitForGlobe
    split
    · simp [GlobeWait.time]
    · have h1 : 50 - (m + 1) < 50 := by omega
      have h2 : 50 - (m + 1) + 1 = 50 - m := by omega
      rw [dif_pos h1, h2]
      have := ih (by omega) (t + 200)
      omega

/-- C2: if the globe library never becomes available, the polling loop of
`initGlobe` gives up after its 50 retries at 200 ms apart and the promise
still resolves, with the no-op fallback, exactly at the final attempt
(10000 ms = 200·50 after the first check, i.e. within one polling interval
of the 50th retry); moreover for every availability history the loop
terminates within that same bound — it never hangs and has no error
outcome. -/
theorem globe_polling_gives_up :
    (∀ t, waitForGlobe (fun _ => false) 0 t = .fallback (t + 200 * 50)) ∧
      (∀ (avail : ℕ → Bool) (t : ℕ),
        (waitForGlobe avail 0 t).time ≤ t + 200 * 50) := by
  constructor
  · intro t
    have := waitForGlobe_never 50 (le_refl 50) t
    simpa using this
  · intro avail t
    have := waitForGlobe_time_le avail 50 (le_refl 50) t
    simpa using this

/-- C6: the latency counter value is the rounded cubic-ease-out of the
clamped progress; the counter duration is 0.8 · ARC_FLIGHT_TIME = 5600 ms;
once `elapsed ≥ duration` (progress clamps to 1) the displayed value equals
`DISTANCE_MILES` exactly, with no residual below the target; and for any
nonnegative elapsed time the value never exceeds the target. -/
theorem latency_counter_exact :
    latencyDuration = 5600 ∧
      (∀ elapsed duration : ℚ, 0 < duration → duration ≤ elapsed →
        latencyValue elapsed duration = (DISTANCE_MILES : ℤ)) ∧
      (∀ elapsed duration : ℚ, 0 ≤ elapsed → 0 < duration →
        latencyValue elapsed duration ≤ (DISTANCE_MILES : ℤ)) := by
  refine ⟨?_, ?_, ?_⟩
  · norm_num [latencyDuration, ARC_FLIGHT_TIME]
  · intro elapsed duration hd he
    unfold latencyValue
    have h1 : (1 : ℚ) ≤ elapsed / duration := (one_le_div hd).mpr he
    rw [min_eq_right h1]
    norm_num
  · intro elapsed duration he hd
    unfold latencyValue
    have hp : min (elapsed / duration) 1 ≤ 1 := min_le_right _ _
    have hcube : (0 : ℚ) ≤ (1 - min (elapsed / duration) 1) ^ 3 := by
      have : (0 : ℚ) ≤ 1 - min (elapsed / duration) 1 := by linarith
      positivity
    have heased : 1 - (1 - min (elapsed / duration) 1) ^ 3 ≤ 1 := by linarith
    have hD : (DISTANCE_MILES : ℚ) = 3084 := by norm_num [DISTANCE_MILES]
    have hprod : (1 - (1 - min (elapsed / duration) 1) ^ 3) * (DISTANCE_MILES : ℚ) ≤
        (3084 : ℚ) := by
      rw [hD]
      nlinarith [hcube]
    have h1 : ((round ((1 - (1 - min (elapsed / duration) 1) ^ 3) *
        (DISTANCE_MILES : ℚ)) : ℤ) : ℚ) ≤
          (1 - (1 - min (elapsed / duration) 1) ^ 3) * (DISTANCE_MILES : ℚ) + 1 / 2 :=
      round_le_add_half _
    have h2 : ((round ((1 - (1 - min (elapsed / duration) 1) ^ 3) *
        (DISTANCE_MILES : ℚ)) : ℤ) : ℚ) < 3085 := by linarith
    have h3 : round ((1 - (1 - min (elapsed / duration) 1) ^ 3) *
        (DISTANCE_MILES : ℚ)) < (3085 : ℤ) := by exact_mod_cast h2
    have hD' : (DISTANCE_MILES : ℤ) = 3084 := by norm_num [DISTANCE_MILES]
    show round ((1 - (1 - min (elapsed / duration) 1) ^ 3) * (DISTANCE_MILES : ℚ)) ≤
      (DISTANCE_MILES : ℤ)
    omega

/-- Witness for `latency_counter_exact` at elapsed = 6000 ms with the
real counter duration. -/
theorem latency_counter_exact_witness :
    latencyValue 6000 latencyDuration = (DISTANCE_MILES : ℤ) :=
  latency_counter_exact.2.1 6000 latencyDuration
    (by norm_num [latencyDuration, ARC_FLIGHT_TIME])
    (by norm_num [latencyDuration, ARC_FLIGHT_TIME])

/-- C9: the second retry activation (attemptCount = 1 at entry) takes the
shake-then-dodge branch, and for every random draw in [0, 1] the dodge
offset is clamped: its horizontal magnitude is at most
min(60, 10% of the viewport width) and its vertical component lies in
[−50, −20]. -/
theorem dodge_offset_bounded :
    (retryAfter 1).retryCount = 1 ∧
      (handleRetry (retryAfter 1)).lastBehavior = .shakeDodge ∧
      (∀ w r1 r2 : ℚ, 0 ≤ w → 0 ≤ r1 → r1 ≤ 1 → 0 ≤ r2 → r2 ≤ 1 →
        |(dodgeOffset w r1 r2).1| ≤ min 60 (w * (1 / 10)) ∧
          -50 ≤ (dodgeOffset w r1 r2).2 ∧ (dodgeOffset w r1 r2).2 ≤ -20) := by
  refine ⟨by decide, by decide, ?_⟩
  intro w r1 r2 hw hr1 hr1' hr2 hr2'
  unfold dodgeOffset
  have hmax : (0 : ℚ) ≤ min 60 (w * (1 / 10)) := by
    apply le_min
    · norm_num
    · positivity
  refine ⟨?_, by simp; linarith, by simp; linarith⟩
  have habs : |r1 - 1 / 2| ≤ 1 / 2 := abs_le.mpr ⟨by linarith, by linarith⟩
  calc |(r1 - 1 / 2) * min 60 (w * (1 / 10)) * 2|
      = |r1 - 1 / 2| * min 60 (w * (1 / 10)) * 2 := by
        rw [abs_mul, abs_mul, abs_of_nonneg hmax]
        norm_num
    _ ≤ min 60 (w * (1 / 10)) := by nlinarith [abs_nonneg (r1 - 1 / 2)]

/-- Witness for `dodge_offset_bounded` at viewport width 320 and draws
r1 = 0, r2 = 1/2. -/
theorem dodge_offset_bounded_witness :
    |(dodgeOffset 320 0 (1 / 2)).1| ≤ min 60 (320 * (1 / 10)) ∧
      -50 ≤ (dodgeOffset 320 0 (1 / 2)).2 ∧
        (dodgeOffset 320 0 (1 / 2)).2 ≤ -20 :=
  dodge_offset_bounded.2.2 320 0 (1 / 2) (by norm_num) (by norm_num)
    (by norm_num) (by norm_num) (by norm_num)

/-- Auxiliary: a fallback outcome of `waitForGlobe` starting at
`waitAttempts = 50 - n` happens exactly `200 * n` ms after the start: the
loop only gives up once all remaining polls have failed. -/
theorem waitForGlobe_fallback_time (avail : ℕ → Bool) (n : ℕ) :
    ∀ t t', waitForGlobe avail (50 - n) t = .fallback t' → t' = t + 200 * n ∨ 50 < n := by
  induction n with
  | zero =>
    intro t t' h'
    left
    unfold waitForGlobe at h'
    simp only [Nat.sub_zero] at h'
    split at h'
    · cases h'
    · rw [dif_neg (by omega)] at h'
      cases h'
      omega
  | succ m ih =>
    intro t t' h'
    rcases Nat.lt_or_ge 50 (m + 1) with hbig | hle
    · right; exact hbig
    unfold waitForGlobe at h'
    split at h'
    · cases h'
    · have h1 : 50 - (m + 1) < 50 := by omega
      rw [dif_pos h1, show 50 - (m + 1) + 1 = 50 - m by omega] at h'
      rcases ih (t + 200) t' h' with heq | hgt
      · left; omega
      · omega

/-- Auxiliary: whatever the availability history, the `initGlobe` promise
resolves no earlier than 10000 ms after the first poll. -/
theorem globeResolveTime_lb (avail : ℕ → Bool) :
    10000 ≤ globeResolveTime (waitForGlobe avail 0 0) := by
  rcases hw : waitForGlobe avail 0 0 with t | t
  · simp only [globeResolveTime, ARC_FLIGHT_TIME, CE_DISPLAY_TIME]
    omega
  · have := waitForGlobe_fallback_time avail 50 0 t (by simpa using hw)
    simp only [globeResolveTime]
    omega

/-- C1: for every run that begins with the user's begin trigger (any
availability history for the globe library), the orchestrator's transition
steps fire at strictly increasing instants; the landing phase is the one
active at the start; the activations among the steps occur exactly in the
order Globe, Romantic transition, Letter; and each phase's `active` flag,
across the resulting state sequence, never turns on again after going off
(no cycle, no re-entry).  All activation/deactivation in the model happens
only by `applyPhase` on the orchestrator's trace. -/
theorem phase_order_no_reentry (avail : ℕ → Bool) :
    List.Chain' (· < ·)
        ((orchestratorTrace (globeResolveTime (waitForGlobe avail 0 0))).map
          Prod.fst) ∧
      phaseInit.landing = true ∧
      (((orchestratorTrace (globeResolveTime (waitForGlobe avail 0 0))).map
          Prod.snd).filter isActivation =
        [.activateGlobe, .enterRomantic, .activateLetter]) ∧
      noReentryB ((phaseStates (globeResolveTime (waitForGlobe avail 0 0))).map
        PhaseState.landing) = true ∧
      noReentryB ((phaseStates (globeResolveTime (waitForGlobe avail 0 0))).map
        PhaseState.globe) = true ∧
      noReentryB ((phaseStates (globeResolveTime (waitForGlobe avail 0 0))).map
        PhaseState.letter) = true ∧
      noReentryB ((phaseStates (globeResolveTime (waitForGlobe avail 0 0))).map
        PhaseState.romantic) = true := by
  have hlb := globeResolveTime_lb avail
  refine ⟨?_, rfl, rfl, rfl, rfl, rfl, rfl⟩
  simp only [orchestratorTrace, List.map_cons, List.map_nil, List.chain'_cons,
    List.chain'_singleton, and_true]
  omega

/-- C7: for both presence and absence of the confetti collaborator,
`handleAccept` completes without throwing; the ask section (the
accept/retry control surface) is faded to opacity 0 and removed from
display 800 ms after the click — exactly one fade-duration — and the fixed
accepted display becomes visible at that same instant. -/
theorem accept_hides_controls :
    ∀ confettiAvailable : Bool,
      ∃ r : AcceptResult,
        handleAccept confettiAvailable = .ok r ∧
          r.askOpacityZero = true ∧
          r.askFadeDuration = 800 ∧
          r.askRemovedAt = 800 ∧
          r.acceptedVisibleAt = 800 ∧
          r.askRemovedAt ≤ r.askFadeDuration := by
  intro confettiAvailable
  cases confettiAvailable
  · exact ⟨_, rfl, rfl, rfl, rfl, rfl, le_refl _⟩
  · exact ⟨_, rfl, rfl, rfl, rfl, rfl, le_refl _⟩

/-- Auxiliary: a click on an already-disabled begin control is a no-op. -/
theorem clickBegin_disabled (s : BeginState) (h : s.beginDisabled = true) :
    clickBegin s = s := by
  unfold clickBegin
  rw [if_pos h]

/-- C8: the begin handler's first synchronous step — before its `await`
suspension — disables the control, so however many clicks arrive, the
begin sequence runs at most once, and it runs exactly once as soon as one
click arrives. -/
theorem begin_runs_once :
    beginHandlerSteps = beginSyncSteps ++ [.awaitGlobe, .startLetterTransition] ∧
      beginSyncSteps.head? = some .disableControl ∧
      (∀ n : ℕ, (clickBegin^[n] beginInit).runs ≤ 1) ∧
      (∀ n : ℕ, 1 ≤ n → clickBegin^[n] beginInit =
        { beginDisabled := true, runs := 1 }) := by
  have hone : clickBegin beginInit = { beginDisabled := true, runs := 1 } := by decide
  have hfix : ∀ n : ℕ, 1 ≤ n → clickBegin^[n] beginInit =
      { beginDisabled := true, runs := 1 } := by
    intro n hn
    induction n with
    | zero => omega
    | succ m ih =>
      rw [Function.iterate_succ_apply']
      rcases Nat.eq_zero_or_pos m with hm | hm
      · subst hm
        simpa using hone
      · rw [ih hm, clickBegin_disabled _ rfl]
  refine ⟨by decide, by decide, ?_, hfix⟩
  intro n
  rcases Nat.eq_zero_or_pos n with hn | hn
  · subst hn; decide
  · rw [hfix n hn]

/-- Witness for `begin_runs_once` after three clicks. -/
theorem begin_runs_once_witness :
    clickBegin^[3] beginInit = { beginDisabled := true, runs := 1 } :=
  begin_runs_once.2.2.2 3 (by decide)

/-- Auxiliary: `List.getD` after `List.set` at the written index. -/
theorem getD_set_self {α : Type} (l : List α) (i : ℕ) (a d : α)
    (h : i < l.length) : (l.set i a).getD i d = a := by
  simp [List.getD_eq_getElem?_getD, List.getElem?_set_self h]

/-- Auxiliary: `List.getD` after `List.set` at another index. -/
theorem getD_set_ne {α : Type} (l : List α) (i j : ℕ) (a d : α)
    (h : i ≠ j) : (l.set i a).getD j d = l.getD j d := by
  simp [List.getD_eq_getElem?_getD, List.getElem?_set_ne h]

/-- Auxiliary: reading a constant-`[]` map always yields `[]`. -/
theorem getD_map_nil (l : List (List Char)) (i : ℕ) :
    (l.map (fun _ => ([] : List Char))).getD i [] = [] := by
  rw [List.getD_eq_getElem?_getD, List.getElem?_map]
  cases l[i]? <;> rfl

/-- Auxiliary: reading a constant-`false` map always yields `false`. -/
theorem getD_map_false (l : List (List Char)) (i : ℕ) :
    (l.map (fun _ => false)).getD i false = false := by
  rw [List.getD_eq_getElem?_getD, List.getElem?_map]
  cases l[i]? <;> rfl

/-- The typewriter's initial state satisfies the run invariant. -/
theorem twInv_init (texts : List (List Char)) : TWInv (twInit texts) := by
  refine ⟨?_, ?_, ?_, ?_, ?_, ?_, ?_, ?_, ?_⟩
  · simp [twInit]
  · simp [twInit]
  · simp [twInit]
  · intro i hi; simp [twInit] at hi
  · intro i hi; simp [twInit] at hi
  · simp [twInit, getD_map_nil]
  · simp [twInit]
  · intro j _; exact getD_map_nil texts j
  · intro j _; exact getD_map_false texts j

/-- A typewriter tick never changes the stored source texts. -/
theorem twStep_texts (s : TWState) : (twStep s).texts = s.texts := by
  unfold twStep
  split
  · split
    · rfl
    · split
      · rfl
      · rfl
  · rfl

/-- The typewriter tick preserves the run invariant. -/
theorem twInv_step {s : TWState} (h : TWInv s) : TWInv (twStep s) := by
  unfold twStep
  split
  case isFalse hp => exact h
  case isTrue hp =>
    have hpr : s.pIndex < s.revealed.length := by rw [h.rlen]; exact hp
    have hps : s.pIndex < s.shown.length := by rw [h.slen]; exact hp
    have ht : s.texts.getD s.pIndex [] = s.texts.get ⟨s.pIndex, hp⟩ := by
      rw [List.getD_eq_getElem _ _ hp]; rfl
    split
    case isTrue hsh =>
      refine ⟨h.rlen, ?_, h.plen, h.before_rev, ?_, h.cur_rev, h.cur_le,
        h.after_rev, ?_⟩
      · rw [List.length_set]; exact h.slen
      · intro i hi
        rw [getD_set_ne _ _ _ _ _ (Nat.ne_of_gt hi)]
        exact h.before_shown i hi
      · intro j hj
        rw [getD_set_ne _ _ _ _ _ (Nat.ne_of_lt hj)]
        exact h.after_shown j hj
    case isFalse hsh =>
      split
      case isTrue hc =>
        refine ⟨?_, h.slen, h.plen, ?_, h.before_shown, ?_, ?_, ?_, h.after_shown⟩
        · rw [List.length_set]; exact h.rlen
        · intro i hi
          rw [getD_set_ne _ _ _ _ _ (Nat.ne_of_gt hi)]
          exact h.before_rev i hi
        · rw [getD_set_self _ _ _ _ hpr, h.cur_rev, ht, List.take_succ,
            List.getElem?_eq_getElem hc]
          simp
        · rw [ht]
          exact hc
        · intro j hj
          rw [getD_set_ne _ _ _ _ _ (Nat.ne_of_lt hj)]
          exact h.after_rev j hj
      case isFalse hc =>
        have hshT : s.shown.getD s.pIndex false = true := by simpa using hsh
        have hci : s.charIndex = (s.texts.get ⟨s.pIndex, hp⟩).length := by
          have := h.cur_le
          rw [ht] at this
          omega
        refine ⟨h.rlen, h.slen, hp, ?_, ?_, ?_, Nat.zero_le _, ?_, ?_⟩
        · intro i hi
          have hi' : i < s.pIndex + 1 := hi
          rcases Nat.lt_or_ge i s.pIndex with h1 | h1
          · exact h.before_rev i h1
          · have hieq : i = s.pIndex := by omega
            subst hieq
            rw [h.cur_rev, ht, hci, List.take_length]
        · intro i hi
          have hi' : i < s.pIndex + 1 := hi
          rcases Nat.lt_or_ge i s.pIndex with h1 | h1
          · exact h.before_shown i h1
          · have hieq : i = s.pIndex := by omega
            subst hieq
            exact hshT
        · rw [List.take_zero]
          exact h.after_rev _ (Nat.lt_succ_self _)
        · intro j hj
          have hj' : s.pIndex + 1 < j := hj
          exact h.after_rev j (by omega)
        · intro j hj
          have hj' : s.pIndex + 1 < j := hj
          exact h.after_shown j (by omega)

/-- Each typewriter tick before completion consumes exactly one unit of
the remaining-work measure. -/
theorem twMeasure_step {s : TWState} (h : TWInv s)
    (hp : s.pIndex < s.texts.length) :
    twMeasure (twStep s) + 1 = twMeasure s := by
  have hps : s.pIndex < s.shown.length := by rw [h.slen]; exact hp
  have ht : s.texts.getD s.pIndex [] = s.texts.get ⟨s.pIndex, hp⟩ := by
    rw [List.getD_eq_getElem _ _ hp]; rfl
  unfold twStep
  rw [dif_pos hp]
  split
  case isTrue hsh =>
    simp only [twMeasure, dif_pos hp]
    rw [getD_set_self _ _ _ _ hps, hsh]
    simp only [if_true, Bool.false_eq_true, if_false]
    omega
  case isFalse hsh =>
    have hshT : s.shown.getD s.pIndex false = true := by simpa using hsh
    split
    case isTrue hc =>
      simp only [twMeasure, dif_pos hp]
      rw [hshT]
      simp only [if_true]
      omega
    case isFalse hc =>
      have hci : s.charIndex = (s.texts.get ⟨s.pIndex, hp⟩).length := by
        have := h.cur_le
        rw [ht] at this
        omega
      rcases Nat.lt_or_ge (s.pIndex + 1) s.texts.length with h2 | h2
      · simp only [twMeasure, dif_pos hp, dif_pos h2]
        rw [hshT, h.after_shown (s.pIndex + 1) (by omega),
          List.drop_eq_getElem_cons h2]
        simp only [List.map_cons, List.sum_cons, if_true, Bool.false_eq_true,
          if_false]
        have hg : s.texts.get ⟨s.pIndex + 1, h2⟩ = s.texts[s.pIndex + 1] := rfl
        rw [hg]
        omega
      · simp only [twMeasure, dif_pos hp, dif_neg (by omega : ¬ s.pIndex + 1 < s.texts.length)]
        rw [hshT, List.drop_eq_nil_of_le (by omega)]
        simp only [List.map_nil, List.sum_nil, if_true]
        omega

/-- Running the typewriter for its measure of ticks preserves the
invariant, the texts, and ends with `pIndex` at the paragraph count. -/
theorem twRun (n : ℕ) : ∀ s : TWState, TWInv s → twMeasure s = n →
    TWInv (twStep^[n] s) ∧ (twStep^[n] s).texts = s.texts ∧
      (twStep^[n] s).pIndex = s.texts.length := by
  induction n with
  | zero =>
    intro s h hm
    simp only [Function.iterate_zero_apply]
    refine ⟨h, trivial, ?_⟩
    rcases Nat.lt_or_ge s.pIndex s.texts.length with hp | hp
    · exfalso
      unfold twMeasure at hm
      rw [dif_pos hp] at hm
      omega
    · have := h.plen
      omega
  | succ m ih =>
    intro s h hm
    have hp : s.pIndex < s.texts.length := by
      rcases Nat.lt_or_ge s.pIndex s.texts.length with hp | hp
      · exact hp
      · exfalso
        unfold twMeasure at hm
        rw [dif_neg (by omega)] at hm
        omega
    rw [Function.iterate_succ_apply]
    have h' := twInv_step h
    have hm' : twMeasure (twStep s) = m := by
      have := twMeasure_step h hp
      omega
    obtain ⟨a, b, c⟩ := ih (twStep s) h' hm'
    refine ⟨a, ?_, ?_⟩
    · rw [b, twStep_texts]
    · rw [c, twStep_texts]

/-- A completed run's revealed contents equal the source texts. -/
theorem twInv_final {s : TWState} (h : TWInv s)
    (hp : s.pIndex = s.texts.length) : s.revealed = s.texts := by
  apply List.ext_getElem h.rlen
  intro i h1 h2
  have hi : i < s.pIndex := by omega
  have hd := h.before_rev i hi
  rw [List.getD_eq_getElem _ _ h1, List.getD_eq_getElem _ _ h2] at hd
  exact hd

/-- Under the invariant, only the current paragraph can be mid-reveal. -/
theorem twInv_uniqueMid {s : TWState} (h : TWInv s) {i : ℕ}
    (hi : partiallyRevealed s i) : i = s.pIndex := by
  rcases lt_trichotomy i s.pIndex with hlt | heq | hgt
  · exfalso
    have hb := h.before_rev i hlt
    have h2 := hi.2
    rw [hb] at h2
    exact absurd h2 (lt_irrefl _)
  · exact heq
  · exfalso
    have ha := h.after_rev i hgt
    have h1 := hi.1
    rw [ha] at h1
    simp at h1

/-- The invariant holds at every tick of a run from the initial state. -/
theorem twInv_iterate (texts : List (List Char)) (k : ℕ) :
    TWInv (twStep^[k] (twInit texts)) ∧
      (twStep^[k] (twInit texts)).texts = texts := by
  induction k with
  | zero => exact ⟨twInv_init texts, rfl⟩
  | succ m ih =>
    rw [Function.iterate_succ_apply']
    exact ⟨twInv_step ih.1, by rw [twStep_texts]; exact ih.2⟩

/-- C3: for every queue of paragraph texts, after the typewriter runs for
its measure of ticks the revealed contents equal the source texts block
by block — so their concatenation equals the concatenation of the sources
with nothing duplicated, dropped, or reordered — and at every intermediate
tick at most one paragraph is partially revealed, with every earlier
paragraph fully revealed and every later paragraph still empty and
hidden. -/
theorem typewriter_correct (texts : List (List Char)) :
    ((twStep^[twMeasure (twInit texts)] (twInit texts)).revealed = texts ∧
      (twStep^[twMeasure (twInit texts)] (twInit texts)).revealed.flatten =
        texts.flatten) ∧
      ∀ k : ℕ,
        (∀ i j : ℕ, partiallyRevealed (twStep^[k] (twInit texts)) i →
          partiallyRevealed (twStep^[k] (twInit texts)) j → i = j) ∧
        (∀ i : ℕ, partiallyRevealed (twStep^[k] (twInit texts)) i →
          (∀ j, j < i → (twStep^[k] (twInit texts)).revealed.getD j [] =
            texts.getD j []) ∧
          (∀ j, i < j → (twStep^[k] (twInit texts)).revealed.getD j [] = [] ∧
            (twStep^[k] (twInit texts)).shown.getD j false = false)) := by
  constructor
  · obtain ⟨hinv, htexts, hdone⟩ :=
      twRun (twMeasure (twInit texts)) (twInit texts) (twInv_init texts) rfl
    have hrev : (twStep^[twMeasure (twInit texts)] (twInit texts)).revealed =
        texts := by
      have := twInv_final hinv (by rw [htexts]; exact hdone)
      rw [htexts] at this
      exact this
    exact ⟨hrev, by rw [hrev]⟩
  · intro k
    obtain ⟨hinv, htexts⟩ := twInv_iterate texts k
    constructor
    · intro i j hi hj
      rw [twInv_uniqueMid hinv hi, twInv_uniqueMid hinv hj]
    · intro i hi
      have hip := twInv_uniqueMid hinv hi
      constructor
      · intro j hj
        have := hinv.before_rev j (by omega)
        rw [htexts] at this
        exact this
      · intro j hj
        exact ⟨hinv.after_rev j (by omega), hinv.after_shown j (by omega)⟩

/-- C10: with an absent container or an empty paragraph list, invoking the
typewriter is a complete no-op — no cursor is created, no timer is
scheduled, and no text content is touched. -/
theorem typewriter_empty_noop (container : Option (List (List Char)))
    (h : container = none ∨ container = some []) :
    startTypewriter container = .noop ∧
      (startTypewriter container).cursorCreated = false ∧
      (startTypewriter container).timersScheduled = 0 ∧
      (startTypewriter container).textsMutated = false := by
  rcases h with h | h <;> subst h <;> exact ⟨rfl, rfl, rfl, rfl⟩

/-- Witness for `typewriter_empty_noop` with an empty paragraph list. -/
theorem typewriter_empty_noop_witness :
    startTypewriter (some []) = .noop ∧
      (startTypewriter (some [])).cursorCreated = false ∧
      (startTypewriter (some [])).timersScheduled = 0 ∧
      (startTypewriter (some [])).textsMutated = false :=
  typewriter_empty_noop (some []) (Or.inr rfl)

/-- Witness for `phase_order_no_reentry` on the never-available history. -/
theorem phase_order_no_reentry_witness :
    noReentryB ((phaseStates (globeResolveTime
        (waitForGlobe (fun _ => false) 0 0))).map PhaseState.globe) = true ∧
      List.Chain' (· < ·)
        ((orchestratorTrace (globeResolveTime
          (waitForGlobe (fun _ => false) 0 0))).map Prod.fst) :=
  ⟨(phase_order_no_reentry (fun _ => false)).2.2.2.2.1,
    (phase_order_no_reentry (fun _ => false)).1⟩

/-- Witness for `globe_polling_gives_up` at start time 0. -/
theorem globe_polling_gives_up_witness :
    waitForGlobe (fun _ => false) 0 0 = .fallback (0 + 200 * 50) :=
  globe_polling_gives_up.1 0

/-- Witness for `accept_hides_controls` with the collaborator absent. -/
theorem accept_hides_controls_witness :
    ∃ r : AcceptResult,
      handleAccept false = .ok r ∧
        r.askOpacityZero = true ∧
        r.askFadeDuration = 800 ∧
        r.askRemovedAt = 800 ∧
        r.acceptedVisibleAt = 800 ∧
        r.askRemovedAt ≤ r.askFadeDuration :=
  accept_hides_controls false

/-- Witness for `typewriter_correct` on a concrete two-paragraph queue. -/
theorem typewriter_correct_witness :
    (twStep^[twMeasure (twInit [['h', 'i'], ['y', 'o', 'u']])]
        (twInit [['h', 'i'], ['y', 'o', 'u']])).revealed =
      [['h', 'i'], ['y', 'o', 'u']] :=
  (typewriter_correct [['h', 'i'], ['y', 'o', 'u']]).1.1

end Valentine
